import Mathlib

/-!
Verification of the news-aggregation pipeline in `news_fetcher.py`.

The module embeds the pure core of the Python program: the article record
shape, the per-adapter response mapping and filtering, the merge stage
(`fetch_all_news`), the multi-query orchestrator
(`fetch_major_news_2018_to_today`), and the CSV row projection
(`save_news_to_csv`).  Network calls are modelled by explicit response
oracles, and the trace of adapter invocations is made explicit so that
call-structure properties can be stated.  Python strings are modelled as
Lean `String` (a list of code points), with Python's code-point-wise
lexicographic comparison, `str.lower`, and substring test re-implemented
structurally below.
-/

set_option maxRecDepth 4000
set_option maxHeartbeats 1000000

/-- Model of Python `str.lower` (ASCII case folding, code-point map). -/
def lowerStr (s : String) : String := String.mk (s.data.map Char.toLower)

/-- Lexicographic comparison of code-point lists: model of Python's `<=`
on strings, restricted to the reflexive-or-less direction. -/
def listLe : List Char → List Char → Bool
  | [], _ => true
  | _ :: _, [] => false
  | a :: as, b :: bs => if a < b then true else if b < a then false else listLe as bs

/-- Model of Python string comparison `s <= t`. -/
def strLe (s t : String) : Bool := listLe s.data t.data

/-- Whether `p` is a prefix of `s` (on code-point lists). -/
def hasPrefixCL : List Char → List Char → Bool
  | [], _ => true
  | _ :: _, [] => false
  | p :: ps, c :: cs => p == c && hasPrefixCL ps cs

/-- Whether `p` occurs as a contiguous sublist of `s`. -/
def occursIn (p : List Char) : List Char → Bool
  | [] => p.isEmpty
  | c :: cs => hasPrefixCL p (c :: cs) || occursIn p cs

/-- Model of Python's substring test `pat in s`. -/
def strIn (pat s : String) : Bool := occursIn pat.data s.data

/-- Model of Python truthiness of the optional `self.api_key` string:
`None` and the empty string are falsy. -/
def keyTruthy : Option String → Bool
  | none => false
  | some s => s != ""

/-- The common article record produced by all adapters.  Each field models
one key of the Python dict; `none` models key absence.  The sentinel
records produced on failure carry only the `error` key. -/
structure Article where
  source : Option String
  title : Option String
  description : Option String
  url : Option String
  published_at : Option String
  source_name : Option String
  score : Option Int
  error : Option String
deriving DecidableEq, Repr

/-- The article dict with no keys at all. -/
def emptyArticle : Article := ⟨none, none, none, none, none, none, none, none⟩

/-- The sort key used at `news_fetcher.py:190` and `news_fetcher.py:242`:
`x.get('published_at', '')`. -/
def pubKey (a : Article) : String := a.published_at.getD ""

/-- The dedup key used at `news_fetcher.py:236`:
`article.get('title', '').lower()`. -/
def titleKey (a : Article) : String := lowerStr (a.title.getD "")

/-- The ordering under which both sort steps are performed: descending
(`reverse=True`) in the plain string order of the `published_at` key. -/
def byDateDesc (a b : Article) : Prop := strLe (pubKey b) (pubKey a) = true

instance : DecidableRel byDateDesc :=
  fun a b => inferInstanceAs (Decidable (strLe (pubKey b) (pubKey a) = true))

/-- Model of `valid_articles.sort(key=lambda x: x.get('published_at', ''),
reverse=True)` (`news_fetcher.py:190` and `news_fetcher.py:242`): Python's
`list.sort` is a stable sort, embedded as stable insertion sort. -/
def sortArticles (l : List Article) : List Article := List.insertionSort byDateDesc l

/-- The dedup loop of `fetch_major_news_2018_to_today`
(`news_fetcher.py:232`-`news_fetcher.py:239`): `seen` models the
`seen_titles` set, accumulated in traversal order. -/
def dedupAux (seen : List String) : List Article → List Article
  | [] => []
  | a :: rest =>
    if titleKey a ≠ "" ∧ titleKey a ∉ seen then
      a :: dedupAux (titleKey a :: seen) rest
    else
      dedupAux seen rest

/-- Deduplication by lowercase title, first occurrence wins
(`news_fetcher.py:231`-`news_fetcher.py:239`). -/
def dedupByTitle (l : List Article) : List Article := dedupAux [] l

/-! ### Basic facts about the string order -/

theorem listLe_refl : ∀ l : List Char, listLe l l = true
  | [] => rfl
  | a :: as => by simp [listLe, listLe_refl as]

theorem listLe_total : ∀ a b : List Char, listLe a b = true ∨ listLe b a = true
  | [], _ => Or.inl rfl
  | _ :: _, [] => Or.inr rfl
  | a :: as, b :: bs => by
    rcases lt_trichotomy a b with h | h | h
    · exact Or.inl (by simp [listLe, h])
    · subst h
      rcases listLe_total as bs with h2 | h2
      · exact Or.inl (by simp [listLe, h2])
      · exact Or.inr (by simp [listLe, h2])
    · exact Or.inr (by simp [listLe, h])

theorem listLe_trans : ∀ a b c : List Char,
    listLe a b = true → listLe b c = true → listLe a c = true
  | [], _, _, _, _ => rfl
  | _ :: _, [], _, h1, _ => by simp [listLe] at h1
  | _ :: _, _ :: _, [], _, h2 => by simp [listLe] at h2
  | a :: as, b :: bs, c :: cs, h1, h2 => by
    rcases lt_trichotomy a b with hab | hab | hab
    · rcases lt_trichotomy b c with hbc | hbc | hbc
      · simp [listLe, lt_trans hab hbc]
      · subst hbc; simp [listLe, hab]
      · simp [listLe, hbc, not_lt_of_gt hbc] at h2
    · subst hab
      rcases lt_trichotomy a c with hac | hac | hac
      · simp [listLe, hac]
      · subst hac
        simp only [listLe, lt_irrefl, if_false] at h1 h2 ⊢
        exact listLe_trans as bs cs h1 h2
      · simp [listLe, hac, not_lt_of_gt hac] at h2
    · simp [listLe, hab, not_lt_of_gt hab] at h1

theorem listLe_nil_right : ∀ l : List Char, listLe l [] = true → l = []
  | [], _ => rfl
  | _ :: _, h => by simp [listLe] at h

theorem data_nil_eq_empty : ∀ s : String, s.data = [] → s = ""
  | ⟨_⟩, h => by simp_all

instance : IsTotal Article byDateDesc :=
  ⟨fun a b => (listLe_total (pubKey b).data (pubKey a).data).elim Or.inl Or.inr⟩

instance : IsTrans Article byDateDesc :=
  ⟨fun _ _ _ h1 h2 => listLe_trans _ _ _ h2 h1⟩

/-! ### Dedup lemmas -/

theorem dedupAux_sublist (l : List Article) :
    ∀ seen : List String, List.Sublist (dedupAux seen l) l := by
  induction l with
  | nil => intro seen; exact List.Sublist.refl _
  | cons a rest ih =>
    intro seen
    by_cases h : titleKey a ≠ "" ∧ titleKey a ∉ seen
    · simpa [dedupAux, h] using List.Sublist.cons₂ a (ih (titleKey a :: seen))
    · simpa [dedupAux, h] using List.Sublist.cons a (ih seen)

theorem mem_dedupAux (l : List Article) :
    ∀ (seen : List String) (a : Article), a ∈ dedupAux seen l →
      titleKey a ≠ "" ∧ titleKey a ∉ seen := by
  induction l with
  | nil => intro seen a ha; simp [dedupAux] at ha
  | cons c rest ih =>
    intro seen a ha
    by_cases h : titleKey c ≠ "" ∧ titleKey c ∉ seen
    · rw [dedupAux, if_pos h] at ha
      rcases List.mem_cons.mp ha with rfl | ha
      · exact h
      · have h2 := ih (titleKey c :: seen) a ha
        exact ⟨h2.1, fun hm => h2.2 (List.mem_cons_of_mem _ hm)⟩
    · rw [dedupAux, if_neg h] at ha
      exact ih seen a ha

theorem pairwise_dedupAux (l : List Article) :
    ∀ seen : List String,
      (dedupAux seen l).Pairwise (fun a b => titleKey a ≠ titleKey b) := by
  induction l with
  | nil => intro seen; simp [dedupAux]
  | cons c rest ih =>
    intro seen
    by_cases h : titleKey c ≠ "" ∧ titleKey c ∉ seen
    · rw [dedupAux, if_pos h]
      refine List.Pairwise.cons (fun b hb => ?_) (ih (titleKey c :: seen))
      have h2 := mem_dedupAux rest (titleKey c :: seen) b hb
      exact fun he => h2.2 (he ▸ List.mem_cons_self _ _)
    · rw [dedupAux, if_neg h]
      exact ih seen

theorem find?_dedupAux (l : List Article) :
    ∀ (seen : List String) (a : Article), a ∈ dedupAux seen l →
      List.find? (fun b => titleKey b == titleKey a) l = some a := by
  induction l with
  | nil => intro seen a ha; simp [dedupAux] at ha
  | cons c rest ih =>
    intro seen a ha
    by_cases h : titleKey c ≠ "" ∧ titleKey c ∉ seen
    · rw [dedupAux, if_pos h] at ha
      rcases List.mem_cons.mp ha with rfl | ha
      · exact List.find?_cons_of_pos _ (beq_self_eq_true _)
      · have h2 := mem_dedupAux rest (titleKey c :: seen) a ha
        have hne : titleKey c ≠ titleKey a :=
          fun he => h2.2 (he ▸ List.mem_cons_self _ _)
        rw [List.find?_cons_of_neg _ (by simpa using hne), ih _ a ha]
    · rw [dedupAux, if_neg h] at ha
      have h2 := mem_dedupAux rest seen a ha
      have hne : titleKey c ≠ titleKey a := by
        rcases Decidable.not_and_iff_or_not.mp h with h3 | h3
        · intro he
          exact h2.1 (he.symm.trans (Decidable.not_not.mp h3))
        · intro he
          exact h2.2 (he ▸ Decidable.not_not.mp h3)
      rw [List.find?_cons_of_neg _ (by simpa using hne), ih seen a ha]

/-! ### Source adapters -/

/-- Outcome of one HTTP round trip, as observed through the adapter's
`try`/`except requests.exceptions.RequestException` block: either a
transport failure with a message, or a parsed JSON payload. -/
inductive HttpResult (α : Type) where
  | failure (msg : String)
  | success (val : α)

/-- One item of the keyed provider's JSON `articles` array, with the keys
read by `fetch_news_api` (`news_fetcher.py:56`-`news_fetcher.py:64`). -/
structure RawNewsItem where
  title : Option String
  description : Option String
  url : Option String
  publishedAt : Option String
  sourceName : Option String
deriving DecidableEq, Repr

/-- The per-item mapping of `fetch_news_api`
(`news_fetcher.py:57`-`news_fetcher.py:64`): empty-string defaults for
missing fields. -/
def newsApiArticle (r : RawNewsItem) : Article :=
  { source := some "NewsAPI"
    title := some (r.title.getD "")
    description := some (r.description.getD "")
    url := some (r.url.getD "")
    published_at := some (r.publishedAt.getD "")
    source_name := some (r.sourceName.getD "")
    score := none
    error := none }

/-- `fetch_news_api` (`news_fetcher.py:19`-`news_fetcher.py:68`).  The
first component records whether an HTTP request was issued; the second is
the returned list.  With a falsy key the adapter returns the single
sentinel error record of `news_fetcher.py:33` without any request. -/
def fetch_news_api (apiKey : Option String) (http : HttpResult (List RawNewsItem)) :
    Bool × List Article :=
  if keyTruthy apiKey = false then
    (false, [{ emptyArticle with
      error := some "API key required for NewsAPI. Get one from newsapi.org" }])
  else
    match http with
    | .failure msg =>
      (true, [{ emptyArticle with error := some ("Failed to fetch from NewsAPI: " ++ msg) }])
    | .success items => (true, items.map newsApiArticle)

/-- One Reddit post's `data` object, with the keys read by
`fetch_reddit_news` (`news_fetcher.py:139`-`news_fetcher.py:153`). -/
structure RedditPost where
  title : Option String
  selftext : Option String
  url : Option String
  created_utc : Option Int
  score : Option Int
deriving DecidableEq, Repr

/-- The keyword allowlist of `news_fetcher.py:142`. -/
def investment_keywords : List String :=
  ["investment", "funding", "venture", "capital", "startup", "ipo",
   "acquisition", "merger", "fund", "raise", "bitcoin", "crypto",
   "cryptocurrency", "btc", "blockchain", "stock", "market", "economy",
   "financial", "finance"]

/-- The filter condition of `news_fetcher.py:144`:
`any(keyword in title for keyword in investment_keywords)` where `title`
is the lowercased post title. -/
def titleMatch (p : RedditPost) : Bool :=
  investment_keywords.any (fun k => strIn k (lowerStr (p.title.getD "")))

/-- The per-post mapping of `fetch_reddit_news`
(`news_fetcher.py:145`-`news_fetcher.py:153`).  `fmtTimestamp` models
`datetime.fromtimestamp(...).isoformat()` on the `created_utc` value. -/
def redditArticle (fmtTimestamp : Int → String) (subreddit : String) (p : RedditPost) :
    Article :=
  { source := some "Reddit"
    title := some (p.title.getD "")
    description := some (p.selftext.getD "")
    url := some (p.url.getD "")
    published_at := some (fmtTimestamp (p.created_utc.getD 0))
    source_name := some ("r/" ++ subreddit)
    score := some (p.score.getD 0)
    error := none }

/-- The success path of `fetch_reddit_news`
(`news_fetcher.py:137`-`news_fetcher.py:154`): keep exactly the posts
whose lowercased title contains a keyword, in feed order. -/
def fetch_reddit_news (fmtTimestamp : Int → String) (subreddit : String)
    (posts : List RedditPost) : List Article :=
  (posts.filter titleMatch).map (redditArticle fmtTimestamp subreddit)

/-- A constant timestamp formatter, used to instantiate the oracle in
concrete computations. -/
def fmtZero : Int → String := fun _ => ""

/-! ### Merge stage and orchestrator -/

/-- One adapter invocation performed by `fetch_all_news`. -/
inductive CallEvent where
  | guardianCall (query : String)
  | redditCall (subreddit : String)
  | newsApiCall (query : String)
deriving DecidableEq, Repr

def CallEvent.isGuardian : CallEvent → Bool
  | .guardianCall _ => true
  | _ => false

def CallEvent.isNewsApi : CallEvent → Bool
  | .newsApiCall _ => true
  | _ => false

def CallEvent.redditTarget : CallEvent → Option String
  | .redditCall s => some s
  | _ => none

/-- The six fixed subreddits of `news_fetcher.py:175`-`news_fetcher.py:180`,
in call order. -/
def redditFeeds : List String :=
  ["investing", "stocks", "Bitcoin", "CryptoCurrency", "worldnews", "news"]

/-- The sequence of adapter invocations issued by `fetch_all_news`
(`news_fetcher.py:174`-`news_fetcher.py:184`): the Guardian once, the six
fixed feeds in order, and NewsAPI only when `self.api_key` is truthy. -/
def fetchCalls (apiKey : Option String) (query : String) : List CallEvent :=
  CallEvent.guardianCall query :: redditFeeds.map CallEvent.redditCall
    ++ (if keyTruthy apiKey then [CallEvent.newsApiCall query] else [])

/-- `fetch_all_news` (`news_fetcher.py:159`-`news_fetcher.py:192`).
`respond` is the oracle giving each adapter invocation's returned list;
the results are concatenated in call order, records carrying the `error`
key are removed, and the remainder is sorted by `published_at`
descending. -/
def fetch_all_news (respond : CallEvent → List Article) (apiKey : Option String)
    (query : String) : List Article :=
  let all_articles := (fetchCalls apiKey query).flatMap respond
  let valid_articles := all_articles.filter (fun a => a.error.isNone)
  sortArticles valid_articles

/-- The fifteen topic queries of `news_fetcher.py:206`-`news_fetcher.py:222`. -/
def major_news_queries : List String :=
  ["politics", "economy", "technology", "business", "finance", "world news",
   "breaking news", "stock market", "cryptocurrency", "climate change",
   "health", "science", "artificial intelligence", "space", "entertainment"]

/-- The final stage of `fetch_major_news_2018_to_today`
(`news_fetcher.py:231`-`news_fetcher.py:243`): dedup by lowercase title,
sort by `published_at` descending, truncate to the first 50. -/
def finalizeMajor (l : List Article) : List Article :=
  (sortArticles (dedupByTitle l)).take 50

/-- `fetch_major_news_2018_to_today` (`news_fetcher.py:194`-`news_fetcher.py:243`).
`respond` gives, per topic query, each adapter invocation's result. -/
def fetch_major_news (respond : String → CallEvent → List Article)
    (apiKey : Option String) : List Article :=
  finalizeMajor
    (major_news_queries.flatMap (fun q => fetch_all_news (respond q) apiKey q))

/-! ### CSV export -/

/-- The fields of a parsed ISO-8601 datetime. -/
structure IsoDateTime where
  year : Nat
  month : Nat
  day : Nat
  hour : Nat
  minute : Nat
  second : Nat
deriving DecidableEq, Repr

def digitVal? (c : Char) : Option Nat :=
  if c.isDigit then some (c.toNat - 48) else none

/-- Accept an empty or `±HH:MM` UTC-offset suffix. -/
def validTz : List Char → Bool
  | [] => true
  | sign :: h1 :: h2 :: ':' :: m1 :: m2 :: [] =>
    (sign == '+' || sign == '-') && h1.isDigit && h2.isDigit && m1.isDigit && m2.isDigit
  | _ => false

/-- Parse `HH:MM[:SS][±HH:MM]` into (hour, minute, second). -/
def parseTimeChars : List Char → Option (Nat × Nat × Nat)
  | h1 :: h2 :: ':' :: n1 :: n2 :: rest =>
    match digitVal? h1, digitVal? h2, digitVal? n1, digitVal? n2 with
    | some a, some b, some c, some d =>
      let hour := a * 10 + b
      let minute := c * 10 + d
      if hour ≤ 23 ∧ minute ≤ 59 then
        match rest with
        | ':' :: s1 :: s2 :: tz =>
          match digitVal? s1, digitVal? s2 with
          | some e, some f =>
            let second := e * 10 + f
            if second ≤ 59 ∧ validTz tz = true then some (hour, minute, second) else none
          | _, _ => none
        | tz => if validTz tz = true then some (hour, minute, 0) else none
      else none
    | _, _, _, _ => none
  | _ => none

/-- Model of Python `datetime.fromisoformat` restricted to the grammar
`YYYY-MM-DD[THH:MM[:SS][±HH:MM]]` (date-only strings are accepted, as
Python accepts them; day-of-month validation is simplified to `1..31`).
The stored fields are the written ones; the offset is validated but
not applied, matching `strftime` on the parsed value. -/
def parseISOChars : List Char → Option IsoDateTime
  | y1 :: y2 :: y3 :: y4 :: '-' :: m1 :: m2 :: '-' :: d1 :: d2 :: rest =>
    match digitVal? y1, digitVal? y2, digitVal? y3, digitVal? y4,
        digitVal? m1, digitVal? m2, digitVal? d1, digitVal? d2 with
    | some a, some b, some c, some d, some e, some f, some g, some h =>
      let year := ((a * 10 + b) * 10 + c) * 10 + d
      let month := e * 10 + f
      let day := g * 10 + h
      if 1 ≤ month ∧ month ≤ 12 ∧ 1 ≤ day ∧ day ≤ 31 then
        match rest with
        | [] => some ⟨year, month, day, 0, 0, 0⟩
        | 'T' :: ts =>
          (parseTimeChars ts).map (fun t => ⟨year, month, day, t.1, t.2.1, t.2.2⟩)
        | _ => none
      else none
    | _, _, _, _, _, _, _, _ => none
  | _ => none

def parseISO (s : String) : Option IsoDateTime := parseISOChars s.data

def pad2 (n : Nat) : String := if n < 10 then "0" ++ toString n else toString n

def pad4 (n : Nat) : String :=
  if n < 10 then "000" ++ toString n
  else if n < 100 then "00" ++ toString n
  else if n < 1000 then "0" ++ toString n
  else toString n

/-- Model of `strftime("%Y-%m-%d %H:%M:%S")` on a parsed datetime. -/
def formatDT (d : IsoDateTime) : String :=
  pad4 d.year ++ "-" ++ pad2 d.month ++ "-" ++ pad2 d.day ++ " "
    ++ pad2 d.hour ++ ":" ++ pad2 d.minute ++ ":" ++ pad2 d.second

/-- Model of `published_at.replace('Z', '+00:00')` (`news_fetcher.py:266`). -/
def replaceZ (s : String) : String :=
  String.mk (s.data.flatMap (fun c => if c = 'Z' then "+00:00".data else [c]))

/-- The date-column computation of `save_news_to_csv`
(`news_fetcher.py:263`-`news_fetcher.py:271`): only strings containing a
`'T'` are parsed; the bare `except` maps any parse failure back to the
raw string. -/
def formatDate (s : String) : String :=
  if s.data.contains 'T' = true then
    match parseISO (replaceZ s) with
    | some d => formatDT d
    | none => s
  else s

/-- One data row of the produced CSV
(`news_fetcher.py:273`-`news_fetcher.py:280`). -/
structure CsvRow where
  date : String
  title : String
  source : String
  sourceName : String
  description : String
  url : String
deriving DecidableEq, Repr

def toCsvRow (a : Article) : CsvRow :=
  { date := formatDate (a.published_at.getD "")
    title := a.title.getD ""
    source := a.source.getD ""
    sourceName := a.source_name.getD ""
    description := a.description.getD ""
    url := a.url.getD "" }

/-- `save_news_to_csv` (`news_fetcher.py:245`-`news_fetcher.py:285`),
modelled up to the external DataFrame/file write: `none` models the
`return None` on an empty input, `some rows` the written data rows. -/
def save_news_to_csv (articles : List Article) : Option (List CsvRow) :=
  if articles = [] then none else some (articles.map toCsvRow)

/-! ### Stability of the sort -/

theorem filter_orderedInsert (k : String) (a : Article) :
    ∀ l : List Article,
      (List.orderedInsert byDateDesc a l).filter (fun x => pubKey x == k)
        = if pubKey a = k then a :: l.filter (fun x => pubKey x == k)
          else l.filter (fun x => pubKey x == k) := by
  intro l
  induction l with
  | nil =>
    by_cases h : pubKey a = k <;> simp [List.orderedInsert, h]
  | cons b l ih =>
    by_cases hr : byDateDesc a b
    · simp only [List.orderedInsert, if_pos hr]
      by_cases h : pubKey a = k <;> by_cases hb : pubKey b = k <;>
        simp [List.filter_cons, h, hb]
    · simp only [List.orderedInsert, if_neg hr]
      by_cases ha : pubKey a = k
      · have hbk : pubKey b ≠ k := by
          intro he
          apply hr
          show strLe (pubKey b) (pubKey a) = true
          rw [he, ha]
          exact listLe_refl _
        simp [List.filter_cons, ha, hbk, ih]
      · simp [List.filter_cons, ha, ih]

theorem filter_sortArticles (k : String) :
    ∀ l : List Article,
      (sortArticles l).filter (fun x => pubKey x == k)
        = l.filter (fun x => pubKey x == k) := by
  intro l
  induction l with
  | nil => rfl
  | cons a l ih =>
    show (List.orderedInsert byDateDesc a (List.insertionSort byDateDesc l)).filter _ = _
    rw [filter_orderedInsert k a]
    show (if pubKey a = k then a :: (sortArticles l).filter _ else (sortArticles l).filter _) = _
    rw [ih]
    by_cases h : pubKey a = k <;> simp [List.filter_cons, h]

/-! ### Error-freeness helpers -/

theorem error_none_of_mem_fetch_all
    (respond : CallEvent → List Article) (apiKey : Option String) (query : String)
    (a : Article) (ha : a ∈ fetch_all_news respond apiKey query) : a.error = none := by
  simp only [fetch_all_news, sortArticles] at ha
  rw [List.mem_insertionSort] at ha
  exact Option.isNone_iff_eq_none.mp (List.mem_filter.mp ha).2

theorem pairwise_empty_last_of_sorted {l : List Article} (h : l.Sorted byDateDesc) :
    l.Pairwise (fun a b => pubKey a = "" → pubKey b = "") := by
  refine h.imp (fun {a b} hr he => ?_)
  have h2 : listLe (pubKey b).data [] = true := by
    have h3 : strLe (pubKey b) (pubKey a) = true := hr
    rw [he] at h3
    exact h3
  exact data_nil_eq_empty _ (listLe_nil_right _ h2)

/-! ### Concrete articles used in closed statements -/

def art2024 : Article := { emptyArticle with published_at := some "2024-01-01T00:00:00" }

def art2023 : Article := { emptyArticle with published_at := some "2023-05-05T00:00:00" }

def wArtAlpha : Article := { emptyArticle with title := some "Alpha" }

def wArtAlphaDup : Article :=
  { emptyArticle with title := some "ALPHA", description := some "dup" }

def wArtBeta : Article := { emptyArticle with title := some "Beta" }

def wArtNoTitle : Article := { emptyArticle with description := some "d" }

/-! ### Claim theorems -/

/-- C1: for every input sequence, deduplication by lowercase title yields a
subsequence of the input (stable accumulation order), no two surviving
records have equal lowercased titles, and each survivor is exactly the
first record of the input carrying its lowercased title (full field
content of the first occurrence). -/
theorem dedup_by_title_correct (l : List Article) :
    List.Sublist (dedupByTitle l) l
    ∧ (dedupByTitle l).Pairwise (fun a b => titleKey a ≠ titleKey b)
    ∧ ∀ a ∈ dedupByTitle l, List.find? (fun b => titleKey b == titleKey a) l = some a :=
  ⟨dedupAux_sublist l [], pairwise_dedupAux l [], fun a ha => find?_dedupAux l [] a ha⟩

/-- Witness for C1 at a concrete three-element input with a duplicated
title: the first occurrence survives and is what `find?` locates. -/
theorem dedup_by_title_correct_witness :
    wArtAlpha ∈ dedupByTitle [wArtAlpha, wArtAlphaDup, wArtBeta]
    ∧ List.find? (fun b => titleKey b == titleKey wArtAlpha)
        [wArtAlpha, wArtAlphaDup, wArtBeta] = some wArtAlpha :=
  ⟨by decide,
   (dedup_by_title_correct [wArtAlpha, wArtAlphaDup, wArtBeta]).2.2 wArtAlpha (by decide)⟩

/-- C2: the sort on the `published_at` string key is a permutation of its
input, descending in the plain string order, stable (records with equal
keys keep their input order), and on the two literal inputs of the spec it
returns them in the stated order. -/
theorem sort_published_at_stable_desc :
    (∀ l : List Article, List.Perm (sortArticles l) l)
    ∧ (∀ l : List Article, List.Sorted byDateDesc (sortArticles l))
    ∧ (∀ (l : List Article) (k : String),
        (sortArticles l).filter (fun x => pubKey x == k)
          = l.filter (fun x => pubKey x == k))
    ∧ sortArticles [art2024, art2023] = [art2024, art2023] :=
  ⟨fun l => List.perm_insertionSort byDateDesc l,
   fun l => List.sorted_insertionSort byDateDesc l,
   fun l k => filter_sortArticles k l,
   by decide⟩

/-- C9: the dedup step of the orchestrator drops every article whose
title key is absent or maps to the empty string: no such article is ever
a member of its output. -/
theorem dedup_drops_empty_titles :
    ∀ (l : List Article) (a : Article), a.title.getD "" = "" → a ∉ dedupByTitle l := by
  intro l a h ha
  apply (mem_dedupAux l [] a ha).1
  unfold titleKey
  rw [h]
  rfl

/-- Witness for C9: an article with no title field at all is dropped even
from a singleton input. -/
theorem dedup_drops_empty_titles_witness :
    wArtNoTitle.title.getD "" = "" ∧ wArtNoTitle ∉ dedupByTitle [wArtNoTitle] :=
  ⟨by decide, dedup_drops_empty_titles [wArtNoTitle] wArtNoTitle (by decide)⟩

/-- C10: the sort key defaults to the empty string for records lacking
`published_at`, so sorting is total (the output always has the input's
length) and, in both the merge stage's and the orchestrator's outputs,
once a record with an empty key appears every later record also has an
empty key — records with a non-empty key come first. -/
theorem sort_total_empty_keys_last :
    (∀ l : List Article, (sortArticles l).length = l.length)
    ∧ (∀ (respond : CallEvent → List Article) (apiKey : Option String) (query : String),
        (fetch_all_news respond apiKey query).Pairwise
          (fun a b => pubKey a = "" → pubKey b = ""))
    ∧ (∀ (respond : String → CallEvent → List Article) (apiKey : Option String),
        (fetch_major_news respond apiKey).Pairwise
          (fun a b => pubKey a = "" → pubKey b = "")) := by
  refine ⟨fun l => List.length_insertionSort byDateDesc l, fun respond apiKey query => ?_, fun respond apiKey => ?_⟩
  · have hs : (fetch_all_news respond apiKey query).Sorted byDateDesc :=
      List.sorted_insertionSort byDateDesc _
    exact pairwise_empty_last_of_sorted hs
  · have hs : (sortArticles (dedupByTitle
        (major_news_queries.flatMap
          (fun q => fetch_all_news (respond q) apiKey q)))).Sorted byDateDesc :=
      List.sorted_insertionSort byDateDesc _
    exact List.Pairwise.sublist (List.take_sublist 50 _)
      (pairwise_empty_last_of_sorted hs)

def respondOk : CallEvent → List Article := fun _ => [art2024]

def apiKeyErrArticle : Article :=
  { emptyArticle with error := some "API key required for NewsAPI. Get one from newsapi.org" }

def postStartup : RedditPost := ⟨some "Startup raises $10M", none, none, none, none⟩

def postCat : RedditPost := ⟨some "Cat video", none, none, none, none⟩

/-- C4: no record carrying the `error` field survives the merge stage or
the orchestrator: whatever every adapter returns, every member of
`fetch_all_news`'s and of `fetch_major_news`'s output has no `error`
field. -/
theorem no_error_records_downstream :
    (∀ (respond : CallEvent → List Article) (apiKey : Option String) (query : String)
        (a : Article), a ∈ fetch_all_news respond apiKey query → a.error = none)
    ∧ (∀ (respond : String → CallEvent → List Article) (apiKey : Option String)
        (a : Article), a ∈ fetch_major_news respond apiKey → a.error = none) := by
  refine ⟨error_none_of_mem_fetch_all, fun respond apiKey a ha => ?_⟩
  simp only [fetch_major_news, finalizeMajor] at ha
  have h1 : a ∈ sortArticles (dedupByTitle
      (major_news_queries.flatMap (fun q => fetch_all_news (respond q) apiKey q))) :=
    (List.take_sublist 50 _).subset ha
  rw [show sortArticles (dedupByTitle _) = List.insertionSort byDateDesc (dedupByTitle
      (major_news_queries.flatMap (fun q => fetch_all_news (respond q) apiKey q))) from rfl,
    List.mem_insertionSort] at h1
  have h2 : a ∈ major_news_queries.flatMap (fun q => fetch_all_news (respond q) apiKey q) :=
    (dedupAux_sublist _ []).subset h1
  rw [List.mem_flatMap] at h2
  obtain ⟨q, _, hmem⟩ := h2
  exact error_none_of_mem_fetch_all (respond q) apiKey q a hmem

/-- Witness for C4: a concrete error-free article returned by every
adapter call is in the merge output and indeed has no error field. -/
theorem no_error_records_downstream_witness :
    art2024 ∈ fetch_all_news respondOk none "investment" ∧ art2024.error = none :=
  ⟨by decide, no_error_records_downstream.1 respondOk none "investment" art2024 (by decide)⟩

/-- C5: invoked with a falsy credential, the keyed-provider adapter issues
no HTTP request and returns exactly one record, whose error message
contains the substring "API key required". -/
theorem news_api_missing_key :
    ∀ (apiKey : Option String) (http : HttpResult (List RawNewsItem)),
      keyTruthy apiKey = false →
        (fetch_news_api apiKey http).1 = false
        ∧ (fetch_news_api apiKey http).2.length = 1
        ∧ ∀ a ∈ (fetch_news_api apiKey http).2,
            strIn "API key required" (a.error.getD "") = true := by
  intro apiKey http h
  have he : fetch_news_api apiKey http
      = (false, [{ emptyArticle with
          error := some "API key required for NewsAPI. Get one from newsapi.org" }]) := by
    simp only [fetch_news_api, h, if_pos]
  rw [he]
  refine ⟨rfl, rfl, ?_⟩
  intro a ha
  rw [List.mem_singleton] at ha
  subst ha
  decide

/-- Witness for C5 at `apiKey = none`: the sentinel record is produced
without a request and carries the required substring. -/
theorem news_api_missing_key_witness :
    (fetch_news_api none (HttpResult.success [])).1 = false
    ∧ (fetch_news_api none (HttpResult.success [])).2.length = 1
    ∧ strIn "API key required" (apiKeyErrArticle.error.getD "") = true := by
  have h := news_api_missing_key none (HttpResult.success []) (by decide)
  exact ⟨h.1, h.2.1, h.2.2 apiKeyErrArticle (by decide)⟩

/-- C6: a Reddit item is kept (as the article built from it) iff its
lowercased title contains at least one keyword of the allowlist; of the
two titles "Startup raises $10M" and "Cat video", only the first
survives. -/
theorem reddit_keyword_filter :
    (∀ (fmt : Int → String) (subreddit : String) (posts : List RedditPost)
        (p : RedditPost), p ∈ posts →
        (redditArticle fmt subreddit p ∈ fetch_reddit_news fmt subreddit posts
          ↔ titleMatch p = true))
    ∧ (fetch_reddit_news fmtZero "investing" [postStartup, postCat]).map
        (fun a => a.title) = [some "Startup raises $10M"] := by
  refine ⟨?_, by decide⟩
  intro fmt sub posts p hp
  constructor
  · intro hmem
    simp only [fetch_reddit_news] at hmem
    obtain ⟨q, hq, he⟩ := List.mem_map.mp hmem
    have hq2 := List.mem_filter.mp hq
    have ht : q.title.getD "" = p.title.getD "" := by
      have h3 := congrArg Article.title he
      simpa [redditArticle] using h3
    have h4 : titleMatch q = titleMatch p := by
      unfold titleMatch
      rw [ht]
    rw [← h4]
    exact hq2.2
  · intro hm
    exact List.mem_map.mpr ⟨p, List.mem_filter.mpr ⟨hp, hm⟩, rfl⟩

/-- Witness for C6: the matching post is indeed kept. -/
theorem reddit_keyword_filter_witness :
    titleMatch postStartup = true
    ∧ redditArticle fmtZero "investing" postStartup
        ∈ fetch_reddit_news fmtZero "investing" [postStartup, postCat] :=
  ⟨by decide,
   (reddit_keyword_filter.1 fmtZero "investing" [postStartup, postCat] postStartup
      (by decide)).mpr (by decide)⟩

/-- C7: per merge-stage invocation the Guardian is called exactly once,
the feed adapter is called against the six fixed subreddits in order, the
keyed provider is called exactly once iff the credential is truthy, and
the output is the call-order concatenation of the responses, filtered of
error records and sorted. -/
theorem fetch_all_call_structure :
    ∀ (respond : CallEvent → List Article) (apiKey : Option String) (query : String),
      (fetchCalls apiKey query).filter CallEvent.isGuardian = [CallEvent.guardianCall query]
      ∧ (fetchCalls apiKey query).filterMap CallEvent.redditTarget = redditFeeds
      ∧ ((fetchCalls apiKey query).filter CallEvent.isNewsApi
          = if keyTruthy apiKey then [CallEvent.newsApiCall query] else [])
      ∧ fetch_all_news respond apiKey query
          = sortArticles (((fetchCalls apiKey query).flatMap respond).filter
              (fun a => a.error.isNone)) := by
  intro respond apiKey query
  refine ⟨?_, ?_, ?_, rfl⟩ <;>
    cases hk : keyTruthy apiKey <;>
      simp only [fetchCalls, redditFeeds, hk] <;> rfl

/-! ### C3: truncation cap -/

def ex73 : List Article :=
  (List.range 73).map (fun i =>
    { emptyArticle with title := some ("t" ++ toString i), published_at := some "2024" })

/-- C3 counterexample: on a concrete list of 73 deduplicated, sorted
articles, the orchestrator's final stage returns 50 articles, not the
first 20 — the fixed cap in this code is 50
(`news_fetcher.py:243`). -/
theorem truncate_cap20_counterexample :
    dedupByTitle ex73 = ex73
    ∧ ex73.Sorted byDateDesc
    ∧ ex73.length = 73
    ∧ (finalizeMajor ex73).length = 50
    ∧ finalizeMajor ex73 ≠ ex73.take 20 := by
  refine ⟨by decide, by decide, by decide, by decide, by decide⟩

/-- C3 (amended): the orchestrator truncates to the fixed cap of 50;
given 73 deduplicated, sorted articles it returns exactly the first 50 in
sorted order. -/
theorem truncate_cap50_correct :
    ∀ l : List Article, dedupByTitle l = l → l.Sorted byDateDesc → l.length = 73 →
      finalizeMajor l = l.take 50 ∧ (finalizeMajor l).length = 50 := by
  intro l h1 h2 h3
  have he : finalizeMajor l = l.take 50 := by
    unfold finalizeMajor
    rw [h1]
    rw [show sortArticles l = l from List.Sorted.insertionSort_eq h2]
  refine ⟨he, ?_⟩
  rw [he, List.length_take, h3]
  decide

/-- Witness for C3 (amended) at the concrete 73-element list. -/
theorem truncate_cap50_correct_witness :
    finalizeMajor ex73 = ex73.take 50 ∧ (finalizeMajor ex73).length = 50 :=
  truncate_cap50_correct ex73 (by decide) (by decide) (by decide)

/-! ### C8: CSV date column -/

def artAX : Article :=
  { emptyArticle with
    title := some "A"
    source := some "X"
    published_at := some "2024-01-01T10:00:00Z" }

def artDateOnly : Article := { emptyArticle with published_at := some "2024-01-01" }

/-- C8 counterexample: the published string "2024-01-01" parses as
ISO-8601 (as Python's `fromisoformat` accepts it), yet because it
contains no `'T'` the CSV Date column is the raw string, not the
reformatted `"2024-01-01 00:00:00"` — refuting "reformatted whenever the
string parses as ISO-8601". -/
theorem csv_date_no_T_counterexample :
    parseISO (replaceZ "2024-01-01") = some ⟨2024, 1, 1, 0, 0, 0⟩
    ∧ formatDT ⟨2024, 1, 1, 0, 0, 0⟩ = "2024-01-01 00:00:00"
    ∧ (toCsvRow artDateOnly).date = "2024-01-01"
    ∧ (toCsvRow artDateOnly).date ≠ formatDT ⟨2024, 1, 1, 0, 0, 0⟩ := by
  refine ⟨by decide, by decide, by decide, by decide⟩

/-- C8 (amended): the Date column is the `published_at` string
reformatted to `%Y-%m-%d %H:%M:%S` when the string contains a `'T'` and
(after replacing `'Z'` by `'+00:00'`) parses as ISO-8601, and the raw
string unchanged otherwise; title and source are copied verbatim, and the
concrete article (title "A", source "X", `2024-01-01T10:00:00Z`) produces
the row with date `2024-01-01 10:00:00` and "A", "X" preserved. -/
theorem csv_date_format_correct :
    (∀ (s : String) (d : IsoDateTime),
        s.data.contains 'T' = true → parseISO (replaceZ s) = some d →
          formatDate s = formatDT d)
    ∧ (∀ s : String, s.data.contains 'T' = false → formatDate s = s)
    ∧ (∀ s : String, parseISO (replaceZ s) = none → formatDate s = s)
    ∧ (∀ a : Article, (toCsvRow a).date = formatDate (a.published_at.getD "")
        ∧ (toCsvRow a).title = a.title.getD ""
        ∧ (toCsvRow a).source = a.source.getD "")
    ∧ save_news_to_csv [artAX]
        = some [⟨"2024-01-01 10:00:00", "A", "X", "", "", ""⟩] := by
  refine ⟨?_, ?_, ?_, fun a => ⟨rfl, rfl, rfl⟩, by decide⟩
  · intro s d h1 h2
    unfold formatDate
    rw [if_pos h1, h2]
  · intro s h
    unfold formatDate
    rw [if_neg (by rw [h]; decide)]
  · intro s h
    by_cases hc : s.data.contains 'T' = true
    · unfold formatDate
      rw [if_pos hc, h]
    · unfold formatDate
      rw [if_neg hc]

/-- Witness for C8 (amended): a concrete string with a `'T'` is
reformatted. -/
theorem csv_date_format_correct_witness :
    ("2025-03-04T05:06:07".data.contains 'T' = true)
    ∧ formatDate "2025-03-04T05:06:07" = formatDT ⟨2025, 3, 4, 5, 6, 7⟩ :=
  ⟨by decide,
   csv_date_format_correct.1 "2025-03-04T05:06:07" ⟨2025, 3, 4, 5, 6, 7⟩
     (by decide) (by decide)⟩
